import Mathlib

/-!
Verification of the tuned Gaussian-process model builder
(`vizier/_src/jax/models/tuned_gp_models.py`).

The parameter-declaration coroutine `VizierGaussianProcess.__call__` is
embedded as a value of a small generator type `Gen`: each `yieldP` emits one
parameter declaration and waits for the externally resolved value before the
body continues.  Kernels, mean functions and the assembled distribution are
represented symbolically, mirroring the compositional structure of the
source; numeric constants are exact rationals.
-/

namespace Vizier

/-- Mirrors `types.ContinuousAndCategorical`: one datum per feature block. -/
structure ContinuousAndCategorical (α : Type) where
  continuous : α
  categorical : α
  deriving DecidableEq

/-- Modelled from the spec: `multitask_tuned_gp_models.MultiTaskType`, the
closed enumeration of multi-task covariance structures (INDEPENDENT plus
separable variants); that module is not among the shown source files. -/
inductive MultiTaskType where
  | INDEPENDENT
  | SEPARABLE_NORMAL_TASK_KERNEL_PRIOR
  | SEPARABLE_LKJ_TASK_KERNEL_PRIOR
  | SEPARABLE_DIAG_TASK_KERNEL_PRIOR
  deriving DecidableEq

/-- A resolved parameter value: a scalar or a vector, exact rationals. -/
inductive Value where
  | scalar (q : ℚ)
  | vector (qs : List ℚ)
  deriving DecidableEq

/-- A bound of a parameter domain: scalar or per-dimension vector, as the
source builds them with numpy scalars and `np.ones(...)` arrays. -/
inductive BoundVal where
  | scalar (q : ℚ)
  | vector (qs : List ℚ)
  deriving DecidableEq

/-- The `tfb.SoftClip(low, high, hinge_softness)` bijector as declared. -/
structure SoftClipSpec where
  low : BoundVal
  high : BoundVal
  hinge_softness : ℚ
  deriving DecidableEq

/-- Mirrors `sp.Constraint(bounds, bijector)`. -/
structure Constraint where
  bounds : BoundVal × BoundVal
  bijector : Option SoftClipSpec
  deriving DecidableEq

/-- The initializer attached to a declaration: `_log_uniform_init(low, high,
shape)` or a normal sample of a given shape (`jax.random.normal`). -/
inductive InitSpec where
  | logUniform (low high : BoundVal) (shape : List ℕ)
  | normal (shape : List ℕ)
  deriving DecidableEq

/-- Mirrors `sp.ModelParameter`: a parameter declaration emitted by one
suspension point of the coroutine (regularizers carry no information any
claim tests and are omitted). -/
structure ModelParameter where
  name : String
  init_fn : InitSpec
  constraint : Option Constraint
  deriving DecidableEq

/-- Modelled from the spec: a feature block (`types.PaddedArray`, not among
the shown source files) — a padded `[N, dim]` array together with is-missing
masks; `dimension_is_missing` is the per-dimension mask the source reads as
`is_missing[1]`. -/
structure PaddedArray where
  padded_array : List (List ℚ)
  example_is_missing : List Bool
  dimension_is_missing : List Bool
  deriving DecidableEq

/-- Mirrors `types.ModelInput`: continuous and categorical feature blocks. -/
abbrev ModelInput := ContinuousAndCategorical PaddedArray

/-- Mirrors `types.ModelData`: features plus a `[N, num_metrics]` label
array. -/
structure ModelData where
  features : ModelInput
  labels : List (List ℚ)
  deriving DecidableEq

/-- Symbolic expressions for resolved-parameter arithmetic appearing in the
kernel composition (`jnp.sqrt`, multiplication by the linear coefficient). -/
inductive Expr where
  | value (v : Value)
  | sqrt (e : Expr)
  | scale (c : ℚ) (e : Expr)
  deriving DecidableEq

/-- Symbolic covariance kernels, one constructor per kernel combinator the
source composes. -/
inductive Kernel where
  | maternFiveHalves (amplitude : Expr)
  | featureScaledWithCategorical (base : Kernel)
      (scale_diag : ContinuousAndCategorical Expr)
  | add (k₁ k₂ : Kernel)
  | continuousOnly (base : Kernel)
  | featureScaled (base : Kernel) (scale_diag : Expr)
  | linear (slope_amplitude shift : Expr)
  | maskFeatures (base : Kernel)
      (dimension_is_missing : ContinuousAndCategorical (List Bool))
  | independent (num_tasks : ℕ) (base : Kernel)
  | separable (num_tasks : ℕ) (base : Kernel) (task_kernel_scale_linop : Expr)
  deriving DecidableEq

/-- The configuration of the retrying-Cholesky `functools.partial` the source
installs as `cholesky_fn`. -/
structure RetryingCholeskyCfg where
  jitter : ℚ
  max_iters : ℕ
  deriving DecidableEq

/-- The assembled distribution: `tfd.GaussianProcess` for a single metric or
`tfde.MultiTaskGaussianProcess` for several, with the arguments the source
passes. -/
inductive GPDist where
  | gaussianProcess (kernel : Kernel)
      (index_points : Option (ContinuousAndCategorical (List (List ℚ))))
      (observation_noise_variance : Expr)
      (cholesky_fn : Option RetryingCholeskyCfg)
      (mean_fn : Option Expr)
  | multiTaskGaussianProcess (kernel : Kernel)
      (index_points : Option (ContinuousAndCategorical (List (List ℚ))))
      (observation_noise_variance : Expr)
      (cholesky_fn : Option RetryingCholeskyCfg)
      (mean_fn : Option Expr)
  deriving DecidableEq

/-- The covariance kernel of the assembled distribution. -/
def GPDist.kernel : GPDist → Kernel
  | .gaussianProcess k _ _ _ _ => k
  | .multiTaskGaussianProcess k _ _ _ _ => k

/-- The index points of the assembled distribution. -/
def GPDist.index_points :
    GPDist → Option (ContinuousAndCategorical (List (List ℚ)))
  | .gaussianProcess _ ip _ _ _ => ip
  | .multiTaskGaussianProcess _ ip _ _ _ => ip

/-- The Cholesky strategy of the assembled distribution. -/
def GPDist.cholesky_fn : GPDist → Option RetryingCholeskyCfg
  | .gaussianProcess _ _ _ c _ => c
  | .multiTaskGaussianProcess _ _ _ c _ => c

/-- The mean function of the assembled distribution. -/
def GPDist.mean_fn : GPDist → Option Expr
  | .gaussianProcess _ _ _ _ m => m
  | .multiTaskGaussianProcess _ _ _ _ m => m

/-- Whether the assembled distribution is the multi-task variant. -/
def GPDist.isMultiTask : GPDist → Bool
  | .gaussianProcess _ _ _ _ _ => false
  | .multiTaskGaussianProcess _ _ _ _ _ => true

/-- Number of tasks of a multi-task kernel wrapper, if any. -/
def Kernel.numTasks : Kernel → Option ℕ
  | .independent m _ => some m
  | .separable m _ _ => some m
  | _ => none

/-- Strips the outer multi-task wrapper of a kernel, if any. -/
def Kernel.stripMultitask : Kernel → Kernel
  | .independent _ base => base
  | .separable _ base _ => base
  | k => k

/-- Strips multi-task and feature-mask wrappers down to the composite
base kernel. -/
def Kernel.stripOuter : Kernel → Kernel
  | .independent _ base => base.stripOuter
  | .separable _ base _ => base.stripOuter
  | .maskFeatures base _ => base.stripOuter
  | k => k

/-- Modelled from the spec: event shape of the assembled distribution —
`[N]` for a `GaussianProcess` over `N` index points, `[N, num_tasks]` for a
`MultiTaskGaussianProcess` (stated by the coroutine's docstring as well). -/
def GPDist.eventShape : GPDist → Option (List ℕ)
  | .gaussianProcess _ ip _ _ _ =>
      ip.map (fun p => [p.continuous.length])
  | .multiTaskGaussianProcess k ip _ _ _ =>
      ip.bind (fun p => k.numTasks.map (fun m => [p.continuous.length, m]))

/-- A suspended computation in the parameter-specification protocol: either
the terminal result, or one emitted declaration together with the
continuation awaiting its resolved value. -/
inductive Gen (α : Type) where
  | pure (a : α)
  | yieldP (p : ModelParameter) (k : Value → Gen α)

/-- Sequencing of protocol bodies; models Python's `yield from` composition
of the nested multi-task protocol run with the outer one. -/
def Gen.bind {α β : Type} : Gen α → (α → Gen β) → Gen β
  | .pure a, f => f a
  | .yieldP p k, f => .yieldP p (fun v => (k v).bind f)

/-- Drives one protocol run: feeds the supplied values one per declaration,
collecting the declarations in emission order; returns the terminal result
when the run completes, `none` when the value stream ends first. -/
def Gen.run {α : Type} : Gen α → List Value → List ModelParameter × Option α
  | .pure a, _ => ([], some a)
  | .yieldP p _, [] => ([p], none)
  | .yieldP p k, v :: vs =>
      let r := (k v).run vs
      (p :: r.1, r.2)

/-- Mirrors the `VizierGaussianProcess` flax dataclass configuration. -/
structure VizierGaussianProcess where
  dim : ContinuousAndCategorical ℕ
  num_metrics : ℕ
  use_retrying_cholesky : Bool
  boundary_epsilon : ℚ
  linear_coef : Option ℚ
  multitask_type : MultiTaskType
  deriving DecidableEq

/-- Replaces the multitask type, keeping every other configuration field. -/
def withMultitask (self : VizierGaussianProcess) (t : MultiTaskType) :
    VizierGaussianProcess :=
  ⟨self.dim, self.num_metrics, self.use_retrying_cholesky,
   self.boundary_epsilon, self.linear_coef, t⟩

/-- Modelled from the spec:
`multitask_tuned_gp_models.build_task_kernel_scale_linop` (module not among
the shown source files) — a nested protocol run that, for a separable
variant, emits one or more task-kernel-scale parameter declarations (count
and shape depending on the variant) and returns the task-correlation
operator built from the resolved values; `INDEPENDENT` never reaches it. -/
def build_task_kernel_scale_linop (num_tasks : ℕ) (t : MultiTaskType) :
    Gen Expr :=
  match t with
  | .INDEPENDENT => Gen.pure (.value (.scalar 1))
  | .SEPARABLE_NORMAL_TASK_KERNEL_PRIOR =>
      Gen.yieldP
        ⟨"task_kernel_scale", .normal [num_tasks, num_tasks], none⟩
        (fun v => Gen.pure (.value v))
  | .SEPARABLE_LKJ_TASK_KERNEL_PRIOR =>
      Gen.yieldP
        ⟨"task_kernel_correlation", .normal [num_tasks, num_tasks], none⟩
        (fun _corr => Gen.yieldP
          ⟨"task_kernel_scale_diag", .normal [num_tasks], none⟩
          (fun w => Gen.pure (.value w)))
  | .SEPARABLE_DIAG_TASK_KERNEL_PRIOR =>
      Gen.yieldP
        ⟨"task_kernel_scale_diag", .normal [num_tasks], none⟩
        (fun v => Gen.pure (.value v))

/-- The parameter-declaration coroutine `VizierGaussianProcess.__call__`,
embedded one suspension point per `yield` of the source. -/
def VizierGaussianProcess.call (self : VizierGaussianProcess)
    (inputs : Option ModelInput) : Gen GPDist :=
  let eps := self.boundary_epsilon
  let observation_noise_bounds : BoundVal × BoundVal :=
    (.scalar (1/10^10 - eps), .scalar (1 + eps))
  let amplitude_bounds : BoundVal × BoundVal :=
    (.scalar (1/10^3 - eps), .scalar (10 + eps))
  let continuous_length_scale_bounds : BoundVal × BoundVal :=
    (.vector (List.replicate self.dim.continuous (1/10^2 - eps)),
     .vector (List.replicate self.dim.continuous (10^2 + eps)))
  let categorical_length_scale_bounds : BoundVal × BoundVal :=
    (.vector (List.replicate self.dim.categorical (1/10^2 - eps)),
     .vector (List.replicate self.dim.categorical (10^2 + eps)))
  Gen.yieldP
    ⟨"signal_variance",
     .logUniform amplitude_bounds.1 amplitude_bounds.2 [],
     some ⟨amplitude_bounds,
       some ⟨amplitude_bounds.1, amplitude_bounds.2, 1/10^2⟩⟩⟩
    fun signal_variance =>
  let kernel := Kernel.maternFiveHalves (.sqrt (.value signal_variance))
  Gen.yieldP
    ⟨"continuous_length_scale_squared",
     .logUniform continuous_length_scale_bounds.1
       continuous_length_scale_bounds.2 [self.dim.continuous],
     some ⟨continuous_length_scale_bounds,
       some ⟨continuous_length_scale_bounds.1,
         continuous_length_scale_bounds.2, 1/10^2⟩⟩⟩
    fun continuous_length_scale_squared =>
  Gen.yieldP
    ⟨"categorical_length_scale_squared",
     .logUniform categorical_length_scale_bounds.1
       categorical_length_scale_bounds.2 [self.dim.categorical],
     some ⟨categorical_length_scale_bounds,
       some ⟨categorical_length_scale_bounds.1,
         categorical_length_scale_bounds.2, 1/10^2⟩⟩⟩
    fun categorical_length_scale_squared =>
  let kernel := Kernel.featureScaledWithCategorical kernel
    ⟨.sqrt (.value continuous_length_scale_squared),
     .sqrt (.value categorical_length_scale_squared)⟩
  (match self.linear_coef with
   | some c =>
     Gen.yieldP
       ⟨"linear_slope_amplitude",
        .logUniform amplitude_bounds.1 amplitude_bounds.2 [],
        some ⟨amplitude_bounds,
          some ⟨amplitude_bounds.1, amplitude_bounds.2, 1/10^2⟩⟩⟩
       fun slopes =>
     Gen.yieldP ⟨"linear_shift", .normal [], none⟩ fun shift =>
     let kernel := kernel.add
       (.continuousOnly
         (.featureScaled
           (.linear (.scale c (.value slopes)) (.scale c (.value shift)))
           (.sqrt (.value continuous_length_scale_squared))))
     Gen.yieldP
       ⟨"mean_fn",
        .normal (if self.num_metrics = 1 then [1] else [1, self.num_metrics]),
        none⟩
       fun mean_fn_constant =>
     Gen.pure (kernel, some (Expr.scale c (.value mean_fn_constant)))
   | none => Gen.pure (kernel, none)).bind
  fun km =>
  let kernel :=
    match inputs with
    | some inp =>
        Kernel.maskFeatures km.1
          ⟨inp.continuous.dimension_is_missing,
           inp.categorical.dimension_is_missing⟩
    | none => km.1
  let mean_fn := km.2
  let index_points : Option (ContinuousAndCategorical (List (List ℚ))) :=
    inputs.map fun inp : ModelInput =>
      ⟨inp.continuous.padded_array, inp.categorical.padded_array⟩
  Gen.yieldP
    ⟨"observation_noise_variance",
     .logUniform observation_noise_bounds.1 observation_noise_bounds.2 [],
     some ⟨observation_noise_bounds,
       some ⟨observation_noise_bounds.1, observation_noise_bounds.2,
         1/10^2⟩⟩⟩
    fun observation_noise_variance =>
  let cholesky_fn : Option RetryingCholeskyCfg :=
    if self.use_retrying_cholesky then some ⟨1/10^4, 5⟩ else none
  if 1 < self.num_metrics then
    if self.multitask_type = MultiTaskType.INDEPENDENT then
      Gen.pure (.multiTaskGaussianProcess
        (.independent self.num_metrics kernel) index_points
        (.value observation_noise_variance) cholesky_fn mean_fn)
    else
      (build_task_kernel_scale_linop self.num_metrics
        self.multitask_type).bind fun task_kernel_scale_linop =>
      Gen.pure (.multiTaskGaussianProcess
        (.separable self.num_metrics kernel task_kernel_scale_linop)
        index_points (.value observation_noise_variance) cholesky_fn mean_fn)
  else
    Gen.pure (.gaussianProcess kernel index_points
      (.value observation_noise_variance) cholesky_fn mean_fn)

/-- The `signal_variance` declaration with its domain and transform. -/
def signal_variance_decl (eps : ℚ) : ModelParameter :=
  ⟨"signal_variance",
   .logUniform (.scalar (1/10^3 - eps)) (.scalar (10 + eps)) [],
   some ⟨(.scalar (1/10^3 - eps), .scalar (10 + eps)),
     some ⟨.scalar (1/10^3 - eps), .scalar (10 + eps), 1/10^2⟩⟩⟩

/-- The `continuous_length_scale_squared` declaration for `dc` continuous
dimensions. -/
def continuous_length_scale_decl (eps : ℚ) (dc : ℕ) : ModelParameter :=
  ⟨"continuous_length_scale_squared",
   .logUniform (.vector (List.replicate dc (1/10^2 - eps)))
     (.vector (List.replicate dc (10^2 + eps))) [dc],
   some ⟨(.vector (List.replicate dc (1/10^2 - eps)),
          .vector (List.replicate dc (10^2 + eps))),
     some ⟨.vector (List.replicate dc (1/10^2 - eps)),
       .vector (List.replicate dc (10^2 + eps)), 1/10^2⟩⟩⟩

/-- The `categorical_length_scale_squared` declaration for `dcat`
categorical dimensions. -/
def categorical_length_scale_decl (eps : ℚ) (dcat : ℕ) : ModelParameter :=
  ⟨"categorical_length_scale_squared",
   .logUniform (.vector (List.replicate dcat (1/10^2 - eps)))
     (.vector (List.replicate dcat (10^2 + eps))) [dcat],
   some ⟨(.vector (List.replicate dcat (1/10^2 - eps)),
          .vector (List.replicate dcat (10^2 + eps))),
     some ⟨.vector (List.replicate dcat (1/10^2 - eps)),
       .vector (List.replicate dcat (10^2 + eps)), 1/10^2⟩⟩⟩

/-- The `linear_slope_amplitude` declaration. -/
def linear_slope_decl (eps : ℚ) : ModelParameter :=
  ⟨"linear_slope_amplitude",
   .logUniform (.scalar (1/10^3 - eps)) (.scalar (10 + eps)) [],
   some ⟨(.scalar (1/10^3 - eps), .scalar (10 + eps)),
     some ⟨.scalar (1/10^3 - eps), .scalar (10 + eps), 1/10^2⟩⟩⟩

/-- The unconstrained `linear_shift` declaration. -/
def linear_shift_decl : ModelParameter := ⟨"linear_shift", .normal [], none⟩

/-- The `mean_fn` declaration: shape `[1]` for one metric, `[1, m]`
otherwise. -/
def mean_fn_decl (m : ℕ) : ModelParameter :=
  ⟨"mean_fn", .normal (if m = 1 then [1] else [1, m]), none⟩

/-- The `observation_noise_variance` declaration. -/
def observation_noise_decl (eps : ℚ) : ModelParameter :=
  ⟨"observation_noise_variance",
   .logUniform (.scalar (1/10^10 - eps)) (.scalar (1 + eps)) [],
   some ⟨(.scalar (1/10^10 - eps), .scalar (1 + eps)),
     some ⟨.scalar (1/10^10 - eps), .scalar (1 + eps), 1/10^2⟩⟩⟩

/-- Declarations emitted by the nested task-kernel protocol run of
`build_task_kernel_scale_linop`, per multitask variant. -/
def taskKernelScaleDecls (num_tasks : ℕ) :
    MultiTaskType → List ModelParameter
  | .INDEPENDENT => []
  | .SEPARABLE_NORMAL_TASK_KERNEL_PRIOR =>
      [⟨"task_kernel_scale", .normal [num_tasks, num_tasks], none⟩]
  | .SEPARABLE_LKJ_TASK_KERNEL_PRIOR =>
      [⟨"task_kernel_correlation", .normal [num_tasks, num_tasks], none⟩,
       ⟨"task_kernel_scale_diag", .normal [num_tasks], none⟩]
  | .SEPARABLE_DIAG_TASK_KERNEL_PRIOR =>
      [⟨"task_kernel_scale_diag", .normal [num_tasks], none⟩]

/-- The declaration schedule of a configuration: the list of parameter
declarations a complete protocol run emits, in emission order. -/
def declSchedule (self : VizierGaussianProcess) : List ModelParameter :=
  [signal_variance_decl self.boundary_epsilon,
   continuous_length_scale_decl self.boundary_epsilon self.dim.continuous,
   categorical_length_scale_decl self.boundary_epsilon self.dim.categorical]
  ++ (match self.linear_coef with
      | some _ =>
          [linear_slope_decl self.boundary_epsilon, linear_shift_decl,
           mean_fn_decl self.num_metrics]
      | none => [])
  ++ [observation_noise_decl self.boundary_epsilon]
  ++ (if 1 < self.num_metrics ∧ self.multitask_type ≠ .INDEPENDENT
      then taskKernelScaleDecls self.num_metrics self.multitask_type
      else [])

/-- A protocol body emits the declarations `ds`, in that order, whatever
values are fed back at its suspension points. -/
inductive Gen.SchedIs {α : Type} : Gen α → List ModelParameter → Prop
  | pure (a : α) : Gen.SchedIs (.pure a) []
  | yieldP (p : ModelParameter) (k : Value → Gen α)
      (ds : List ModelParameter) (h : ∀ v, Gen.SchedIs (k v) ds) :
      Gen.SchedIs (.yieldP p k) (p :: ds)

/-- Mirrors `VizierGaussianProcess.__attrs_post_init__`: constructing the
dataclass raises `ValueError` when `num_metrics < 1`. -/
def VizierGaussianProcess.attrsPostInit (g : VizierGaussianProcess) :
    Except String VizierGaussianProcess :=
  if g.num_metrics < 1 then
    Except.error ("Number of metrics must be at least 1")
  else
    Except.ok g

/-- Mirrors `sp.StochasticProcessModel`: the flax module wrapping the
coroutine. -/
structure StochasticProcessModel where
  coroutine : VizierGaussianProcess
  deriving DecidableEq

/-- Width of the last axis of a rectangular `[N, d]` array. -/
def rowWidth (rows : List (List ℚ)) : ℕ := (rows.headD []).length

/-- Mirrors `VizierGaussianProcess.build_model`: builds the dataclass from
the data's shapes (running the post-init check) and wraps it in a
`StochasticProcessModel`. -/
def VizierGaussianProcess.build_model (data : ModelData)
    (use_retrying_cholesky : Bool) (linear_coef : Option ℚ)
    (multitask_type : MultiTaskType) : Except String StochasticProcessModel :=
  (VizierGaussianProcess.attrsPostInit
    ⟨⟨rowWidth data.features.continuous.padded_array,
      rowWidth data.features.categorical.padded_array⟩,
     rowWidth data.labels, use_retrying_cholesky, 1/10^12, linear_coef,
     multitask_type⟩).map StochasticProcessModel.mk

/-- Modelled from the spec: the escalating jitter sequence of the retrying
factorization — the configured jitter, grown geometrically (one decade per
retry), one entry per allowed retry. -/
def retryJitters (jitter : ℚ) (max_iters : ℕ) : List ℚ :=
  (List.range max_iters).map (fun i => jitter * 10 ^ i)

/-- Modelled from the spec:
`tfp.experimental.distributions.marginal_fns.retrying_cholesky` (a library
routine, not among the shown source files) — attempt the factorization; on
numerical failure retry with an escalating diagonal jitter, up to
`max_iters` retries; if every attempt fails, the numerical-instability
failure propagates (`none`), never a silent wrong result.  `ok j` abstracts
whether the factorization succeeds once jitter `j` is added. -/
def retrying_cholesky (ok : ℚ → Bool) (jitter : ℚ) (max_iters : ℕ) :
    Option ℚ :=
  if ok 0 then some 0 else (retryJitters jitter max_iters).find? ok

/-- Modelled from the spec: `mask_features.MaskFeatures` (module not among
the shown source files) zeroes out the feature dimensions flagged missing
before the inner kernel sees them, so those dimensions cannot influence the
kernel value. -/
def maskValues (mask : List Bool) (x : List ℚ) : List ℚ :=
  List.zipWith (fun m v => if m then 0 else v) mask x

/-- Masking applied to both feature blocks of one example. -/
def maskInput (mask : ContinuousAndCategorical (List Bool))
    (x : ContinuousAndCategorical (List ℚ)) :
    ContinuousAndCategorical (List ℚ) :=
  ⟨maskValues mask.continuous x.continuous,
   maskValues mask.categorical x.categorical⟩

/-- Evaluation of a `MaskFeatures`-wrapped kernel: the inner kernel applied
to the masked examples. -/
def maskFeaturesEval
    (innerK : ContinuousAndCategorical (List ℚ) →
      ContinuousAndCategorical (List ℚ) → ℚ)
    (mask : ContinuousAndCategorical (List Bool))
    (x y : ContinuousAndCategorical (List ℚ)) : ℚ :=
  innerK (maskInput mask x) (maskInput mask y)

/-- The Gram (covariance) matrix of a kernel over the index points; the
assembled distribution's log-density depends on the features only through
this matrix. -/
def gramMatrix
    (k : ContinuousAndCategorical (List ℚ) →
      ContinuousAndCategorical (List ℚ) → ℚ)
    (xs : List (ContinuousAndCategorical (List ℚ))) : List (List ℚ) :=
  xs.map (fun x => xs.map (fun y => k x y))

/-- The softplus with hinge softness `s`: `s * log(1 + exp(y / s))`. -/
noncomputable def softplus (s y : ℝ) : ℝ :=
  s * Real.log (1 + Real.exp (y / s))

/-- Inverse of `softplus s` on the positive reals. -/
noncomputable def softplusInv (s z : ℝ) : ℝ :=
  s * Real.log (Real.exp (z / s) - 1)

/-- Modelled from the spec: the forward map of the `tfb.SoftClip(low, high,
hinge_softness)` bijector (a library bijector, not among the shown source
files), as documented:
`x ↦ high - softplus(high - low - softplus(x - low)) * (high - low) /
softplus(high - low)`, every softplus with the given hinge softness. -/
noncomputable def softClip (low high s x : ℝ) : ℝ :=
  high - softplus s (high - low - softplus s (x - low)) * (high - low) /
    softplus s (high - low)

/-- Two examples agree on every feature dimension that is not flagged
missing (and have the same widths). -/
def offMaskAgree (mask : ContinuousAndCategorical (List Bool))
    (x y : ContinuousAndCategorical (List ℚ)) : Prop :=
  x.continuous.length = y.continuous.length
  ∧ x.categorical.length = y.categorical.length
  ∧ (∀ i, mask.continuous.get? i = some false →
      x.continuous.get? i = y.continuous.get? i)
  ∧ (∀ i, mask.categorical.get? i = some false →
      x.categorical.get? i = y.categorical.get? i)

@[simp] theorem Gen.bind_pure {α β : Type} (a : α) (f : α → Gen β) :
    (Gen.pure a).bind f = f a := rfl

@[simp] theorem Gen.bind_yieldP {α β : Type} (p : ModelParameter)
    (k : Value → Gen α) (f : α → Gen β) :
    (Gen.yieldP p k).bind f = .yieldP p (fun v => (k v).bind f) := rfl

@[simp] theorem Gen.run_pure {α : Type} (a : α) (vs : List Value) :
    (Gen.pure a).run vs = ([], some a) := rfl

@[simp] theorem Gen.run_yieldP_nil {α : Type} (p : ModelParameter)
    (k : Value → Gen α) : (Gen.yieldP p k).run [] = ([p], none) := rfl

@[simp] theorem Gen.run_yieldP_cons {α : Type} (p : ModelParameter)
    (k : Value → Gen α) (v : Value) (vs : List Value) :
    (Gen.yieldP p k).run (v :: vs) =
      (p :: ((k v).run vs).1, ((k v).run vs).2) := rfl

/-- Sequencing two bodies concatenates their schedules. -/
theorem Gen.SchedIs.bind_schedule {α β : Type} {g : Gen α}
    {ds : List ModelParameter} (h : Gen.SchedIs g ds) {f : α → Gen β}
    {es : List ModelParameter} (hf : ∀ a, Gen.SchedIs (f a) es) :
    Gen.SchedIs (g.bind f) (ds ++ es) := by
  induction h with
  | pure a => simpa using hf a
  | yieldP p k ds h ih => exact .yieldP _ _ _ (fun v => ih v)

/-- Post-composing with a pure continuation keeps the schedule. -/
theorem Gen.SchedIs.bind_pure_schedule {α β : Type} {g : Gen α}
    {ds : List ModelParameter} (h : Gen.SchedIs g ds) (f : α → β) :
    Gen.SchedIs (g.bind fun a => Gen.pure (f a)) ds := by
  have := @Gen.SchedIs.bind_schedule _ _ _ _ h (fun a => Gen.pure (f a)) []
    (fun a => .pure _)
  simpa using this

/-- A complete run of a body with schedule `ds` emits exactly `ds`. -/
theorem Gen.SchedIs.run_fst {α : Type} {g : Gen α}
    {ds : List ModelParameter} (h : Gen.SchedIs g ds) :
    ∀ vs : List Value, ((g.run vs).2).isSome → (g.run vs).1 = ds := by
  induction h with
  | pure a => intro vs _; simp
  | yieldP p k ds h ih =>
      intro vs hs
      cases vs with
      | nil => simp at hs
      | cons v vs =>
          simp only [Gen.run_yieldP_cons] at hs ⊢
          simp [ih v vs hs]

/-- The nested task-kernel run has the fixed variant schedule. -/
theorem schedIs_build_task (num_tasks : ℕ) (t : MultiTaskType) :
    Gen.SchedIs (build_task_kernel_scale_linop num_tasks t)
      (taskKernelScaleDecls num_tasks t) := by
  cases t <;>
    · unfold build_task_kernel_scale_linop taskKernelScaleDecls
      repeat first
        | exact .pure _
        | refine .yieldP _ _ _ (fun v => ?_)

/-- The coroutine's schedule is determined by the configuration alone. -/
theorem schedIs_call (self : VizierGaussianProcess)
    (inputs : Option ModelInput) :
    Gen.SchedIs (self.call inputs) (declSchedule self) := by
  obtain ⟨dim, m, u, e, lc, mt⟩ := self
  unfold VizierGaussianProcess.call declSchedule
  cases lc with
  | none =>
      simp only [List.cons_append, List.nil_append, Gen.bind_pure]
      refine .yieldP _ _ _ (fun v1 => ?_)
      refine .yieldP _ _ _ (fun v2 => ?_)
      refine .yieldP _ _ _ (fun v3 => ?_)
      refine .yieldP _ _ _ (fun v4 => ?_)
      by_cases hm : 1 < m
      · by_cases ht : mt = MultiTaskType.INDEPENDENT
        · subst ht
          simp only [if_pos hm, if_pos rfl]
          have : ¬ (1 < m ∧ MultiTaskType.INDEPENDENT ≠
              MultiTaskType.INDEPENDENT) := by simp
          simp only [if_neg this]
          exact .pure _
        · simp only [if_pos hm, if_neg ht, if_pos (And.intro hm ht)]
          exact (schedIs_build_task m mt).bind_pure_schedule _
      · simp only [if_neg hm]
        have : ¬ (1 < m ∧ mt ≠ MultiTaskType.INDEPENDENT) := by
          intro hc; exact hm hc.1
        simp only [if_neg this]
        exact .pure _
  | some c =>
      simp only [List.cons_append, List.nil_append, Gen.bind_yieldP,
        Gen.bind_pure]
      refine .yieldP _ _ _ (fun v1 => ?_)
      refine .yieldP _ _ _ (fun v2 => ?_)
      refine .yieldP _ _ _ (fun v3 => ?_)
      refine .yieldP _ _ _ (fun v4 => ?_)
      refine .yieldP _ _ _ (fun v5 => ?_)
      refine .yieldP _ _ _ (fun v6 => ?_)
      refine .yieldP _ _ _ (fun v7 => ?_)
      by_cases hm : 1 < m
      · by_cases ht : mt = MultiTaskType.INDEPENDENT
        · subst ht
          simp only [if_pos hm, if_pos rfl]
          have : ¬ (1 < m ∧ MultiTaskType.INDEPENDENT ≠
              MultiTaskType.INDEPENDENT) := by simp
          simp only [if_neg this]
          exact .pure _
        · simp only [if_pos hm, if_neg ht, if_pos (And.intro hm ht)]
          exact (schedIs_build_task m mt).bind_pure_schedule _
      · simp only [if_neg hm]
        have : ¬ (1 < m ∧ mt ≠ MultiTaskType.INDEPENDENT) := by
          intro hc; exact hm hc.1
        simp only [if_neg this]
        exact .pure _

/-- C1: Declaration-schedule determinism — for one fixed configuration, any
two complete runs of the parameter-declaration coroutine emit identical
declaration lists (same names, order and count), whatever parameter values
are fed back and whatever feature data is supplied. -/
theorem decl_schedule_deterministic (self : VizierGaussianProcess)
    (inputs inputs' : Option ModelInput) (vs vs' : List Value)
    (h : (((self.call inputs).run vs).2).isSome)
    (h' : (((self.call inputs').run vs').2).isSome) :
    ((self.call inputs).run vs).1 = ((self.call inputs').run vs').1 := by
  rw [(schedIs_call self inputs).run_fst vs h,
    (schedIs_call self inputs').run_fst vs' h']

/-- Witness for C1: a concrete configuration, run once without feature data
and once with feature data and different parameter values. -/
theorem decl_schedule_deterministic_witness :
    (((⟨⟨1, 1⟩, 1, true, 1/10^12, none, .INDEPENDENT⟩ :
        VizierGaussianProcess).call none).run
      [.scalar 1, .vector [2], .vector [3], .scalar 4]).1 =
    (((⟨⟨1, 1⟩, 1, true, 1/10^12, none, .INDEPENDENT⟩ :
        VizierGaussianProcess).call
        (some ⟨⟨[[5]], [false], [false]⟩, ⟨[[6]], [false], [false]⟩⟩)).run
      [.scalar 7, .vector [8], .vector [9], .scalar 10, .scalar 11]).1 :=
  decl_schedule_deterministic _ none
    (some ⟨⟨[[5]], [false], [false]⟩, ⟨[[6]], [false], [false]⟩⟩)
    [.scalar 1, .vector [2], .vector [3], .scalar 4]
    [.scalar 7, .vector [8], .vector [9], .scalar 10, .scalar 11]
    (by rfl) (by rfl)

/-- C2: `num_metrics < 1` at build time raises the configuration error (so
no model exists to emit declarations), while `num_metrics >= 1` builds a
model without this error. -/
theorem num_metrics_precondition (data : ModelData)
    (use_retrying_cholesky : Bool) (linear_coef : Option ℚ)
    (multitask_type : MultiTaskType) :
    (rowWidth data.labels < 1 →
      VizierGaussianProcess.build_model data use_retrying_cholesky
        linear_coef multitask_type =
        Except.error ("Number of metrics must be at least 1"))
    ∧ (1 ≤ rowWidth data.labels →
      VizierGaussianProcess.build_model data use_retrying_cholesky
        linear_coef multitask_type =
        Except.ok ⟨⟨⟨rowWidth data.features.continuous.padded_array,
          rowWidth data.features.categorical.padded_array⟩,
          rowWidth data.labels, use_retrying_cholesky, 1/10^12, linear_coef,
          multitask_type⟩⟩) := by
  constructor
  · intro hlt
    simp [VizierGaussianProcess.build_model,
      VizierGaussianProcess.attrsPostInit, hlt, Except.map]
  · intro hge
    have : ¬ rowWidth data.labels < 1 := by omega
    simp [VizierGaussianProcess.build_model,
      VizierGaussianProcess.attrsPostInit, this, Except.map]

/-- Witness for C2: empty labels trigger the error; one-metric labels
build successfully. -/
theorem num_metrics_precondition_witness :
    (VizierGaussianProcess.build_model ⟨⟨⟨[[1]], [false], [false]⟩,
        ⟨[[2]], [false], [false]⟩⟩, [[]]⟩ true none .INDEPENDENT =
      Except.error ("Number of metrics must be at least 1"))
    ∧ (VizierGaussianProcess.build_model ⟨⟨⟨[[1]], [false], [false]⟩,
        ⟨[[2]], [false], [false]⟩⟩, [[3]]⟩ true none .INDEPENDENT =
      Except.ok ⟨⟨⟨1, 1⟩, 1, true, 1/10^12, none, .INDEPENDENT⟩⟩) :=
  ⟨(num_metrics_precondition ⟨⟨⟨[[1]], [false], [false]⟩,
      ⟨[[2]], [false], [false]⟩⟩, [[]]⟩ true none .INDEPENDENT).1
      (by decide),
   (num_metrics_precondition ⟨⟨⟨[[1]], [false], [false]⟩,
      ⟨[[2]], [false], [false]⟩⟩, [[3]]⟩ true none .INDEPENDENT).2
      (by decide)⟩

/-- Characterization of the terminal result of a complete coroutine run:
Cholesky wiring, index points, multi-task selection, feature masking and
the linear-trend structure, for every configuration. -/
theorem run_call_result (self : VizierGaussianProcess)
    (inputs : Option ModelInput) (vs : List Value) (r : GPDist)
    (h : ((self.call inputs).run vs).2 = some r) :
    r.cholesky_fn =
      (if self.use_retrying_cholesky then some ⟨1/10^4, 5⟩ else none)
    ∧ r.index_points = (inputs.map fun inp : ModelInput =>
        ⟨inp.continuous.padded_array, inp.categorical.padded_array⟩)
    ∧ (1 < self.num_metrics →
        r.isMultiTask = true ∧ r.kernel.numTasks = some self.num_metrics)
    ∧ (self.num_metrics ≤ 1 → r.isMultiTask = false)
    ∧ (∀ inp, inputs = some inp → ∃ base, r.kernel.stripMultitask =
        .maskFeatures base ⟨inp.continuous.dimension_is_missing,
          inp.categorical.dimension_is_missing⟩)
    ∧ (∀ c, self.linear_coef = some c →
        (∃ base scd s sh, r.kernel.stripOuter = .add base
          (.continuousOnly (.featureScaled
            (.linear (.scale c s) (.scale c sh)) scd)))
        ∧ ∃ mv, r.mean_fn = some (.scale c mv))
    ∧ (self.linear_coef = none → r.mean_fn = none) := by
  obtain ⟨dim, m, u, e, lc, mt⟩ := self
  unfold VizierGaussianProcess.call at h
  cases lc with
  | none =>
      rcases vs with _ | ⟨v1, vs⟩
      · simp at h
      simp at h
      rcases vs with _ | ⟨v2, vs⟩
      · simp at h
      simp at h
      rcases vs with _ | ⟨v3, vs⟩
      · simp at h
      simp at h
      rcases vs with _ | ⟨v4, vs⟩
      · simp at h
      simp at h
      by_cases hm : 1 < m
      · rw [if_pos hm] at h
        by_cases ht : mt = MultiTaskType.INDEPENDENT
        · rw [if_pos ht] at h
          simp only [Gen.run_pure, Option.some.injEq] at h
          subst h
          exact ⟨by simp [GPDist.cholesky_fn], rfl, fun _ => ⟨rfl, rfl⟩,
            fun hle => absurd hm (Nat.not_lt.mpr hle),
            fun inp hi => by subst hi; exact ⟨_, rfl⟩,
            fun c hc => Option.noConfusion hc, fun _ => rfl⟩
        · rw [if_neg ht] at h
          cases mt with
          | INDEPENDENT => exact absurd rfl ht
          | SEPARABLE_NORMAL_TASK_KERNEL_PRIOR =>
              simp only [build_task_kernel_scale_linop, Gen.bind_yieldP,
                Gen.bind_pure] at h
              rcases vs with _ | ⟨v5, vs⟩
              · simp at h
              simp only [Gen.run_yieldP_cons, Gen.run_pure,
                Option.some.injEq] at h
              subst h
              exact ⟨by simp [GPDist.cholesky_fn], rfl, fun _ => ⟨rfl, rfl⟩,
                fun hle => absurd hm (Nat.not_lt.mpr hle),
                fun inp hi => by subst hi; exact ⟨_, rfl⟩,
                fun c hc => Option.noConfusion hc, fun _ => rfl⟩
          | SEPARABLE_LKJ_TASK_KERNEL_PRIOR =>
              simp only [build_task_kernel_scale_linop, Gen.bind_yieldP,
                Gen.bind_pure] at h
              rcases vs with _ | ⟨v5, vs⟩
              · simp at h
              rcases vs with _ | ⟨v6, vs⟩
              · simp at h
              simp only [Gen.run_yieldP_cons, Gen.run_pure,
                Option.some.injEq] at h
              subst h
              exact ⟨by simp [GPDist.cholesky_fn], rfl, fun _ => ⟨rfl, rfl⟩,
                fun hle => absurd hm (Nat.not_lt.mpr hle),
                fun inp hi => by subst hi; exact ⟨_, rfl⟩,
                fun c hc => Option.noConfusion hc, fun _ => rfl⟩
          | SEPARABLE_DIAG_TASK_KERNEL_PRIOR =>
              simp only [build_task_kernel_scale_linop, Gen.bind_yieldP,
                Gen.bind_pure] at h
              rcases vs with _ | ⟨v5, vs⟩
              · simp at h
              simp only [Gen.run_yieldP_cons, Gen.run_pure,
                Option.some.injEq] at h
              subst h
              exact ⟨by simp [GPDist.cholesky_fn], rfl, fun _ => ⟨rfl, rfl⟩,
                fun hle => absurd hm (Nat.not_lt.mpr hle),
                fun inp hi => by subst hi; exact ⟨_, rfl⟩,
                fun c hc => Option.noConfusion hc, fun _ => rfl⟩
      · rw [if_neg hm] at h
        simp only [Gen.run_pure, Option.some.injEq] at h
        subst h
        exact ⟨by simp [GPDist.cholesky_fn], rfl, fun hc => absurd hc hm, fun _ => rfl,
          fun inp hi => by subst hi; exact ⟨_, rfl⟩,
          fun c hc => Option.noConfusion hc, fun _ => rfl⟩
  | some c0 =>
      rcases vs with _ | ⟨v1, vs⟩
      · simp at h
      simp at h
      rcases vs with _ | ⟨v2, vs⟩
      · simp at h
      simp at h
      rcases vs with _ | ⟨v3, vs⟩
      · simp at h
      simp at h
      rcases vs with _ | ⟨v4, vs⟩
      · simp at h
      simp at h
      rcases vs with _ | ⟨v5, vs⟩
      · simp at h
      simp at h
      rcases vs with _ | ⟨v6, vs⟩
      · simp at h
      simp at h
      rcases vs with _ | ⟨v7, vs⟩
      · simp at h
      simp at h
      by_cases hm : 1 < m
      · rw [if_pos hm] at h
        by_cases ht : mt = MultiTaskType.INDEPENDENT
        · rw [if_pos ht] at h
          simp only [Gen.run_pure, Option.some.injEq] at h
          subst h
          refine ⟨by simp [GPDist.cholesky_fn], rfl, fun _ => ⟨rfl, rfl⟩,
            fun hle => absurd hm (Nat.not_lt.mpr hle),
            fun inp hi => by subst hi; exact ⟨_, rfl⟩, ?_,
            fun hc => Option.noConfusion hc⟩
          intro c hc
          injection hc with hc
          subst hc
          rcases inputs with _ | inp
          · exact ⟨⟨_, _, _, _, rfl⟩, ⟨_, rfl⟩⟩
          · exact ⟨⟨_, _, _, _, rfl⟩, ⟨_, rfl⟩⟩
        · rw [if_neg ht] at h
          cases mt with
          | INDEPENDENT => exact absurd rfl ht
          | SEPARABLE_NORMAL_TASK_KERNEL_PRIOR =>
              simp only [build_task_kernel_scale_linop, Gen.bind_yieldP,
                Gen.bind_pure] at h
              rcases vs with _ | ⟨v8, vs⟩
              · simp at h
              simp only [Gen.run_yieldP_cons, Gen.run_pure,
                Option.some.injEq] at h
              subst h
              refine ⟨by simp [GPDist.cholesky_fn], rfl, fun _ => ⟨rfl, rfl⟩,
                fun hle => absurd hm (Nat.not_lt.mpr hle),
                fun inp hi => by subst hi; exact ⟨_, rfl⟩, ?_,
                fun hc => Option.noConfusion hc⟩
              intro c hc
              injection hc with hc
              subst hc
              rcases inputs with _ | inp
              · exact ⟨⟨_, _, _, _, rfl⟩, ⟨_, rfl⟩⟩
              · exact ⟨⟨_, _, _, _, rfl⟩, ⟨_, rfl⟩⟩
          | SEPARABLE_LKJ_TASK_KERNEL_PRIOR =>
              simp only [build_task_kernel_scale_linop, Gen.bind_yieldP,
                Gen.bind_pure] at h
              rcases vs with _ | ⟨v8, vs⟩
              · simp at h
              rcases vs with _ | ⟨v9, vs⟩
              · simp at h
              simp only [Gen.run_yieldP_cons, Gen.run_pure,
                Option.some.injEq] at h
              subst h
              refine ⟨by simp [GPDist.cholesky_fn], rfl, fun _ => ⟨rfl, rfl⟩,
                fun hle => absurd hm (Nat.not_lt.mpr hle),
                fun inp hi => by subst hi; exact ⟨_, rfl⟩, ?_,
                fun hc => Option.noConfusion hc⟩
              intro c hc
              injection hc with hc
              subst hc
              rcases inputs with _ | inp
              · exact ⟨⟨_, _, _, _, rfl⟩, ⟨_, rfl⟩⟩
              · exact ⟨⟨_, _, _, _, rfl⟩, ⟨_, rfl⟩⟩
          | SEPARABLE_DIAG_TASK_KERNEL_PRIOR =>
              simp only [build_task_kernel_scale_linop, Gen.bind_yieldP,
                Gen.bind_pure] at h
              rcases vs with _ | ⟨v8, vs⟩
              · simp at h
              simp only [Gen.run_yieldP_cons, Gen.run_pure,
                Option.some.injEq] at h
              subst h
              refine ⟨by simp [GPDist.cholesky_fn], rfl, fun _ => ⟨rfl, rfl⟩,
                fun hle => absurd hm (Nat.not_lt.mpr hle),
                fun inp hi => by subst hi; exact ⟨_, rfl⟩, ?_,
                fun hc => Option.noConfusion hc⟩
              intro c hc
              injection hc with hc
              subst hc
              rcases inputs with _ | inp
              · exact ⟨⟨_, _, _, _, rfl⟩, ⟨_, rfl⟩⟩
              · exact ⟨⟨_, _, _, _, rfl⟩, ⟨_, rfl⟩⟩
      · rw [if_neg hm] at h
        simp only [Gen.run_pure, Option.some.injEq] at h
        subst h
        refine ⟨by simp [GPDist.cholesky_fn], rfl, fun hc => absurd hc hm, fun _ => rfl,
          fun inp hi => by subst hi; exact ⟨_, rfl⟩, ?_,
          fun hc => Option.noConfusion hc⟩
        intro c hc
        injection hc with hc
        subst hc
        rcases inputs with _ | inp
        · exact ⟨⟨_, _, _, _, rfl⟩, ⟨_, rfl⟩⟩
        · exact ⟨⟨_, _, _, _, rfl⟩, ⟨_, rfl⟩⟩

/-- The concrete jitter ladder of the default retrying configuration. -/
theorem retryJitters_val :
    retryJitters (1/10^4) 5 = [1/10^4, 1/10^3, 1/10^2, 1/10, 1] := by
  simp [retryJitters, List.range_succ]
  norm_num

/-- C3: When `use_retrying_cholesky` is true the assembled distribution's
factorization is the retrying Cholesky with initial jitter `1e-4` and at
most 5 attempts, whose jitter sequence starts at `1e-4` and strictly
increases; if every attempt fails the failure propagates (`none`) rather
than a silent result, and a returned jitter is always one that succeeded;
when the flag is false a plain non-retrying factorization is used. -/
theorem retrying_cholesky_policy (self : VizierGaussianProcess)
    (inputs : Option ModelInput) (vs : List Value) (r : GPDist)
    (h : ((self.call inputs).run vs).2 = some r) :
    r.cholesky_fn =
      (if self.use_retrying_cholesky then some ⟨1/10^4, 5⟩ else none)
    ∧ (retryJitters (1/10^4) 5).head? = some (1/10^4)
    ∧ (retryJitters (1/10^4) 5).length = 5
    ∧ List.Chain' (· < ·) (retryJitters (1/10^4) 5)
    ∧ (∀ ok : ℚ → Bool, (∀ j, ok j = false) →
        retrying_cholesky ok (1/10^4) 5 = none)
    ∧ (∀ (ok : ℚ → Bool) (j : ℚ), retrying_cholesky ok (1/10^4) 5 = some j →
        ok j = true) := by
  refine ⟨(run_call_result self inputs vs r h).1,
    by rw [retryJitters_val]; rfl, by rw [retryJitters_val]; rfl,
    by rw [retryJitters_val]; norm_num [List.chain'_cons,
      List.chain'_singleton], ?_, ?_⟩
  · intro ok hok
    unfold retrying_cholesky
    rw [if_neg (by simp [hok])]
    exact List.find?_eq_none.mpr (fun x _ => by simp [hok])
  · intro ok j hj
    unfold retrying_cholesky at hj
    by_cases h0 : ok 0
    · rw [if_pos h0] at hj
      cases hj
      exact h0
    · rw [if_neg h0] at hj
      exact List.find?_some hj

/-- Witness for C3: a complete run with the flag on carries the retrying
configuration, and an always-failing factorization yields no result. -/
theorem retrying_cholesky_policy_witness :
    ∃ r : GPDist, (((⟨⟨1, 1⟩, 1, true, 1/10^12, none, .INDEPENDENT⟩ :
        VizierGaussianProcess).call none).run
      [.scalar 1, .vector [2], .vector [3], .scalar 4]).2 = some r
    ∧ r.cholesky_fn = some ⟨1/10^4, 5⟩
    ∧ retrying_cholesky (fun _ => false) (1/10^4) 5 = none :=
  ⟨_, rfl,
   (retrying_cholesky_policy
     (⟨⟨1, 1⟩, 1, true, 1/10^12, none, .INDEPENDENT⟩ :
       VizierGaussianProcess) none
     [.scalar 1, .vector [2], .vector [3], .scalar 4] _ rfl).1,
   (retrying_cholesky_policy
     (⟨⟨1, 1⟩, 1, true, 1/10^12, none, .INDEPENDENT⟩ :
       VizierGaussianProcess) none
     [.scalar 1, .vector [2], .vector [3], .scalar 4] _ rfl).2.2.2.2.1
     (fun _ => false) (fun _ => rfl)⟩

/-- C4: Event-shape selection — a complete run over `N` examples assembles
a single-task distribution of event shape `[N]` when `num_metrics = 1`, and
a multi-task distribution of event shape `[N, num_metrics]` when
`num_metrics > 1`. -/
theorem event_shape_selection (self : VizierGaussianProcess)
    (inp : ModelInput) (vs : List Value) (r : GPDist)
    (h : ((self.call (some inp)).run vs).2 = some r) :
    (self.num_metrics = 1 →
      r.isMultiTask = false
      ∧ r.eventShape = some [inp.continuous.padded_array.length])
    ∧ (1 < self.num_metrics →
      r.isMultiTask = true
      ∧ r.eventShape = some [inp.continuous.padded_array.length,
          self.num_metrics]) := by
  obtain ⟨-, hip, hmulti, hsingle, -, -, -⟩ :=
    run_call_result self (some inp) vs r h
  constructor
  · intro h1
    have hs := hsingle (le_of_eq h1)
    refine ⟨hs, ?_⟩
    cases r with
    | gaussianProcess k ip onv ch mf =>
        simp only [GPDist.index_points, Option.map_some'] at hip
        simp [GPDist.eventShape, hip]
    | multiTaskGaussianProcess k ip onv ch mf =>
        simp [GPDist.isMultiTask] at hs
  · intro h2
    obtain ⟨hmt, hnt⟩ := hmulti h2
    refine ⟨hmt, ?_⟩
    cases r with
    | gaussianProcess k ip onv ch mf =>
        simp [GPDist.isMultiTask] at hmt
    | multiTaskGaussianProcess k ip onv ch mf =>
        simp only [GPDist.index_points, Option.map_some'] at hip
        simp only [GPDist.kernel] at hnt
        simp [GPDist.eventShape, hip, hnt]

/-- Witness for C4: a two-example, single-metric run yields event shape
`[2]`. -/
theorem event_shape_selection_witness :
    ∃ r : GPDist, (((⟨⟨1, 1⟩, 1, true, 1/10^12, none, .INDEPENDENT⟩ :
        VizierGaussianProcess).call
        (some ⟨⟨[[1], [2]], [false, false], [false]⟩,
               ⟨[[3], [4]], [false, false], [false]⟩⟩)).run
      [.scalar 1, .vector [2], .vector [3], .scalar 4]).2 = some r
    ∧ r.isMultiTask = false ∧ r.eventShape = some [2] :=
  ⟨_, rfl,
   ((event_shape_selection
     (⟨⟨1, 1⟩, 1, true, 1/10^12, none, .INDEPENDENT⟩ :
       VizierGaussianProcess)
     ⟨⟨[[1], [2]], [false, false], [false]⟩,
      ⟨[[3], [4]], [false, false], [false]⟩⟩
     [.scalar 1, .vector [2], .vector [3], .scalar 4] _ rfl).1 rfl).1,
   ((event_shape_selection
     (⟨⟨1, 1⟩, 1, true, 1/10^12, none, .INDEPENDENT⟩ :
       VizierGaussianProcess)
     ⟨⟨[[1], [2]], [false, false], [false]⟩,
      ⟨[[3], [4]], [false, false], [false]⟩⟩
     [.scalar 1, .vector [2], .vector [3], .scalar 4] _ rfl).1 rfl).2⟩

/-- C5: For `num_metrics > 1`, `INDEPENDENT` emits no declarations beyond
the base schedule and strictly fewer than any separable variant; a
separable variant's schedule is the `INDEPENDENT` schedule (whose last
element is the observation-noise declaration) followed by its non-empty
nested task-kernel-scale declarations. -/
theorem independent_vs_separable_decls (self : VizierGaussianProcess)
    (hm : 1 < self.num_metrics)
    (ht : self.multitask_type ≠ MultiTaskType.INDEPENDENT) :
    declSchedule self =
      declSchedule (withMultitask self .INDEPENDENT) ++
        taskKernelScaleDecls self.num_metrics self.multitask_type
    ∧ (declSchedule (withMultitask self .INDEPENDENT)).length <
        (declSchedule self).length
    ∧ (declSchedule (withMultitask self .INDEPENDENT)).getLast? =
        some (observation_noise_decl self.boundary_epsilon)
    ∧ taskKernelScaleDecls self.num_metrics self.multitask_type ≠ [] := by
  obtain ⟨dim, m, u, e, lc, mt⟩ := self
  cases mt with
  | INDEPENDENT => exact absurd rfl ht
  | SEPARABLE_NORMAL_TASK_KERNEL_PRIOR =>
      cases lc <;>
        exact ⟨by simp [declSchedule, withMultitask, taskKernelScaleDecls,
            hm],
          by simp [declSchedule, withMultitask, taskKernelScaleDecls, hm],
          by simp [declSchedule, withMultitask],
          by simp [taskKernelScaleDecls]⟩
  | SEPARABLE_LKJ_TASK_KERNEL_PRIOR =>
      cases lc <;>
        exact ⟨by simp [declSchedule, withMultitask, taskKernelScaleDecls,
            hm],
          by simp [declSchedule, withMultitask, taskKernelScaleDecls, hm],
          by simp [declSchedule, withMultitask],
          by simp [taskKernelScaleDecls]⟩
  | SEPARABLE_DIAG_TASK_KERNEL_PRIOR =>
      cases lc <;>
        exact ⟨by simp [declSchedule, withMultitask, taskKernelScaleDecls,
            hm],
          by simp [declSchedule, withMultitask, taskKernelScaleDecls, hm],
          by simp [declSchedule, withMultitask],
          by simp [taskKernelScaleDecls]⟩

/-- Witness for C5: two metrics, separable-normal variant. -/
theorem independent_vs_separable_decls_witness :
    declSchedule (⟨⟨1, 1⟩, 2, true, 1/10^12, none,
        .SEPARABLE_NORMAL_TASK_KERNEL_PRIOR⟩ : VizierGaussianProcess) =
      declSchedule (withMultitask ⟨⟨1, 1⟩, 2, true, 1/10^12, none,
        .SEPARABLE_NORMAL_TASK_KERNEL_PRIOR⟩ .INDEPENDENT) ++
        taskKernelScaleDecls 2 .SEPARABLE_NORMAL_TASK_KERNEL_PRIOR :=
  (independent_vs_separable_decls _ (by decide) (by decide)).1

/-- C7: Exactly when `linear_coef` is non-null, three further declarations
sit between the categorical-length-scale and observation-noise
declarations — a slope amplitude with domain `[1e-3, 10]` (widened by the
boundary epsilon) under a `SoftClip` transform, an unconstrained shift, and
a mean-function offset of shape `[1]` for one metric and
`[1, num_metrics]` otherwise — and the resulting linear covariance term is
wrapped to apply to the continuous feature block only. -/
theorem linear_coef_declarations (self : VizierGaussianProcess) :
    (∀ c : ℚ, self.linear_coef = some c →
      ((declSchedule self).get? 2 = some (categorical_length_scale_decl
          self.boundary_epsilon self.dim.categorical)
        ∧ (declSchedule self).get? 3 = some ⟨"linear_slope_amplitude",
            .logUniform (.scalar (1/10^3 - self.boundary_epsilon))
              (.scalar (10 + self.boundary_epsilon)) [],
            some ⟨(.scalar (1/10^3 - self.boundary_epsilon),
                   .scalar (10 + self.boundary_epsilon)),
              some ⟨.scalar (1/10^3 - self.boundary_epsilon),
                .scalar (10 + self.boundary_epsilon), 1/10^2⟩⟩⟩
        ∧ (declSchedule self).get? 4 = some ⟨"linear_shift", .normal [], none⟩
        ∧ (declSchedule self).get? 5 = some ⟨"mean_fn",
            .normal (if self.num_metrics = 1 then [1]
              else [1, self.num_metrics]), none⟩
        ∧ (declSchedule self).get? 6 = some (observation_noise_decl
            self.boundary_epsilon))
      ∧ ∀ (inputs : Option ModelInput) (vs : List Value) (r : GPDist),
          ((self.call inputs).run vs).2 = some r →
          ∃ base scd s sh, r.kernel.stripOuter = .add base
            (.continuousOnly (.featureScaled
              (.linear (.scale c s) (.scale c sh)) scd)))
    ∧ (self.linear_coef = none →
        (declSchedule self).get? 3 = some (observation_noise_decl
          self.boundary_epsilon)
        ∧ "linear_slope_amplitude" ∉
            (declSchedule self).map ModelParameter.name
        ∧ "linear_shift" ∉ (declSchedule self).map ModelParameter.name
        ∧ "mean_fn" ∉ (declSchedule self).map ModelParameter.name) := by
  constructor
  · intro c hc
    constructor
    · obtain ⟨dim, m, u, e, lc, mt⟩ := self
      cases lc with
      | none => exact Option.noConfusion hc
      | some c' => exact ⟨rfl, rfl, rfl, rfl, rfl⟩
    · intro inputs vs r hrun
      exact ((run_call_result self inputs vs r hrun).2.2.2.2.2.1 c hc).1
  · intro hnone
    obtain ⟨dim, m, u, e, lc, mt⟩ := self
    cases lc with
    | some c' => exact Option.noConfusion hnone
    | none =>
        refine ⟨rfl, ?_, ?_, ?_⟩ <;>
          · by_cases hcond : 1 < m ∧ mt ≠ MultiTaskType.INDEPENDENT
            · cases mt <;>
                simp [declSchedule, taskKernelScaleDecls, hcond,
                  signal_variance_decl, continuous_length_scale_decl,
                  categorical_length_scale_decl, observation_noise_decl]
            · simp [declSchedule, hcond, signal_variance_decl,
                continuous_length_scale_decl,
                categorical_length_scale_decl, observation_noise_decl]

/-- Witness for C7: with `linear_coef = 1`, the shift declaration sits at
index 4 of the schedule. -/
theorem linear_coef_declarations_witness :
    (declSchedule (⟨⟨1, 1⟩, 1, true, 1/10^12, some 1, .INDEPENDENT⟩ :
        VizierGaussianProcess)).get? 4 =
      some ⟨"linear_shift", .normal [], none⟩ :=
  ((linear_coef_declarations _).1 1 rfl).1.2.2.1

/-- C8: The declared domains are exactly — signal variance `[1e-3, 10]`,
continuous and categorical length-scale vectors `[1e-2, 100]` per
dimension, observation-noise variance `[1e-10, 1]` — each widened by the
boundary epsilon and carrying a `SoftClip` transform over the same widened
bounds. -/
theorem declared_domains (self : VizierGaussianProcess) :
    (declSchedule self).get? 0 = some ⟨"signal_variance",
      .logUniform (.scalar (1/10^3 - self.boundary_epsilon))
        (.scalar (10 + self.boundary_epsilon)) [],
      some ⟨(.scalar (1/10^3 - self.boundary_epsilon),
             .scalar (10 + self.boundary_epsilon)),
        some ⟨.scalar (1/10^3 - self.boundary_epsilon),
          .scalar (10 + self.boundary_epsilon), 1/10^2⟩⟩⟩
    ∧ (declSchedule self).get? 1 = some ⟨"continuous_length_scale_squared",
      .logUniform
        (.vector (List.replicate self.dim.continuous
          (1/10^2 - self.boundary_epsilon)))
        (.vector (List.replicate self.dim.continuous
          (10^2 + self.boundary_epsilon))) [self.dim.continuous],
      some ⟨(.vector (List.replicate self.dim.continuous
               (1/10^2 - self.boundary_epsilon)),
             .vector (List.replicate self.dim.continuous
               (10^2 + self.boundary_epsilon))),
        some ⟨.vector (List.replicate self.dim.continuous
            (1/10^2 - self.boundary_epsilon)),
          .vector (List.replicate self.dim.continuous
            (10^2 + self.boundary_epsilon)), 1/10^2⟩⟩⟩
    ∧ (declSchedule self).get? 2 = some ⟨"categorical_length_scale_squared",
      .logUniform
        (.vector (List.replicate self.dim.categorical
          (1/10^2 - self.boundary_epsilon)))
        (.vector (List.replicate self.dim.categorical
          (10^2 + self.boundary_epsilon))) [self.dim.categorical],
      some ⟨(.vector (List.replicate self.dim.categorical
               (1/10^2 - self.boundary_epsilon)),
             .vector (List.replicate self.dim.categorical
               (10^2 + self.boundary_epsilon))),
        some ⟨.vector (List.replicate self.dim.categorical
            (1/10^2 - self.boundary_epsilon)),
          .vector (List.replicate self.dim.categorical
            (10^2 + self.boundary_epsilon)), 1/10^2⟩⟩⟩
    ∧ (self.linear_coef.isSome →
        (declSchedule self).get? 6 = some ⟨"observation_noise_variance",
          .logUniform (.scalar (1/10^10 - self.boundary_epsilon))
            (.scalar (1 + self.boundary_epsilon)) [],
          some ⟨(.scalar (1/10^10 - self.boundary_epsilon),
                 .scalar (1 + self.boundary_epsilon)),
            some ⟨.scalar (1/10^10 - self.boundary_epsilon),
              .scalar (1 + self.boundary_epsilon), 1/10^2⟩⟩⟩)
    ∧ (self.linear_coef = none →
        (declSchedule self).get? 3 = some ⟨"observation_noise_variance",
          .logUniform (.scalar (1/10^10 - self.boundary_epsilon))
            (.scalar (1 + self.boundary_epsilon)) [],
          some ⟨(.scalar (1/10^10 - self.boundary_epsilon),
                 .scalar (1 + self.boundary_epsilon)),
            some ⟨.scalar (1/10^10 - self.boundary_epsilon),
              .scalar (1 + self.boundary_epsilon), 1/10^2⟩⟩⟩) := by
  obtain ⟨dim, m, u, e, lc, mt⟩ := self
  refine ⟨rfl, rfl, rfl, ?_, ?_⟩
  · intro hs
    cases lc with
    | none => simp at hs
    | some c => exact rfl
  · intro hn
    cases lc with
    | some c => exact Option.noConfusion hn
    | none => exact rfl

/-- Witness for C8: without a linear term the observation-noise
declaration sits at index 3. -/
theorem declared_domains_witness :
    (declSchedule (⟨⟨1, 1⟩, 1, true, 1/10^12, none, .INDEPENDENT⟩ :
        VizierGaussianProcess)).get? 3 = some ⟨"observation_noise_variance",
      .logUniform (.scalar (1/10^10 - 1/10^12)) (.scalar (1 + 1/10^12)) [],
      some ⟨(.scalar (1/10^10 - 1/10^12), .scalar (1 + 1/10^12)),
        some ⟨.scalar (1/10^10 - 1/10^12), .scalar (1 + 1/10^12),
          1/10^2⟩⟩⟩ :=
  (declared_domains _).2.2.2.2 rfl

/-- C10: With a single metric the multitask type has no effect — the
coroutine (hence schedule and assembled distribution) is identical for
every multitask type, and the result is a plain single-task
`GaussianProcess`. -/
theorem single_metric_multitask_irrelevant (self : VizierGaussianProcess)
    (t : MultiTaskType) (hm : self.num_metrics = 1)
    (inputs : Option ModelInput) :
    (withMultitask self t).call inputs = self.call inputs
    ∧ declSchedule (withMultitask self t) = declSchedule self
    ∧ (∀ (vs : List Value) (r : GPDist),
        ((self.call inputs).run vs).2 = some r → r.isMultiTask = false) := by
  obtain ⟨dim, m, u, e, lc, mt⟩ := self
  have hm' : m = 1 := hm
  subst hm'
  refine ⟨?_, ?_, ?_⟩
  · cases lc <;> simp [VizierGaussianProcess.call, withMultitask]
  · cases lc <;> simp [declSchedule, withMultitask]
  · intro vs r h
    exact (run_call_result _ inputs vs r h).2.2.2.1 (le_of_eq hm)

/-- Witness for C10: single metric, LKJ-separable type, same schedule as
the configuration itself. -/
theorem single_metric_multitask_irrelevant_witness :
    declSchedule (withMultitask
      (⟨⟨1, 1⟩, 1, true, 1/10^12, none, .INDEPENDENT⟩ :
        VizierGaussianProcess) .SEPARABLE_LKJ_TASK_KERNEL_PRIOR) =
    declSchedule (⟨⟨1, 1⟩, 1, true, 1/10^12, none, .INDEPENDENT⟩ :
        VizierGaussianProcess) :=
  (single_metric_multitask_irrelevant _ .SEPARABLE_LKJ_TASK_KERNEL_PRIOR
    rfl none).2.1

/-- Masking is insensitive to the raw values of flagged dimensions. -/
theorem maskValues_congr : ∀ (mask : List Bool) (x y : List ℚ),
    x.length = y.length →
    (∀ i, mask.get? i = some false → x.get? i = y.get? i) →
    maskValues mask x = maskValues mask y
  | [], x, y, _, _ => by simp [maskValues]
  | b :: mask, [], y, hlen, h => by
      cases y with
      | nil => rfl
      | cons a ys => simp at hlen
  | b :: mask, a :: xs, [], hlen, h => by simp at hlen
  | b :: mask, a :: xs, a' :: ys, hlen, h => by
      simp only [maskValues, List.zipWith_cons_cons]
      have htail : maskValues mask xs = maskValues mask ys :=
        maskValues_congr mask xs ys (by simpa using hlen)
          (fun i hi => h (i + 1) hi)
      cases b with
      | true => simpa [maskValues] using htail
      | false =>
          have hhead : a = a' := by simpa using h 0 rfl
          simpa [maskValues, hhead] using htail

/-- Masking a whole example is insensitive to flagged dimensions. -/
theorem maskInput_congr (mask : ContinuousAndCategorical (List Bool))
    (x y : ContinuousAndCategorical (List ℚ)) (h : offMaskAgree mask x y) :
    maskInput mask x = maskInput mask y := by
  obtain ⟨h1, h2, h3, h4⟩ := h
  unfold maskInput
  rw [maskValues_congr mask.continuous _ _ h1 h3,
    maskValues_congr mask.categorical _ _ h2 h4]

/-- The Gram matrix of the masked kernel sees only masked examples. -/
theorem gramMatrix_mask_eq_map
    (innerK : ContinuousAndCategorical (List ℚ) →
      ContinuousAndCategorical (List ℚ) → ℚ)
    (mask : ContinuousAndCategorical (List Bool))
    (xs : List (ContinuousAndCategorical (List ℚ))) :
    gramMatrix (maskFeaturesEval innerK mask) xs =
      gramMatrix innerK (xs.map (maskInput mask)) := by
  simp [gramMatrix, maskFeaturesEval, List.map_map, Function.comp]

/-- Gram matrices of the masked kernel agree on datasets that differ only
in all-missing dimensions. -/
theorem gramMatrix_mask_congr
    (innerK : ContinuousAndCategorical (List ℚ) →
      ContinuousAndCategorical (List ℚ) → ℚ)
    (mask : ContinuousAndCategorical (List Bool))
    (xs ys : List (ContinuousAndCategorical (List ℚ)))
    (h : List.Forall₂ (offMaskAgree mask) xs ys) :
    gramMatrix (maskFeaturesEval innerK mask) xs =
      gramMatrix (maskFeaturesEval innerK mask) ys := by
  rw [gramMatrix_mask_eq_map, gramMatrix_mask_eq_map]
  have : xs.map (maskInput mask) = ys.map (maskInput mask) := by
    induction h with
    | nil => rfl
    | cons hxy hrest ih =>
        simp only [List.map_cons, ih, maskInput_congr _ _ _ hxy]
  rw [this]

/-- C6: Noninterference of masked dimensions — a complete run over feature
data wraps the kernel in `MaskFeatures` with exactly the data's
per-dimension missing masks, and any log-density functional of the masked
kernel's Gram matrix is unchanged when only the raw values of flagged
dimensions are perturbed. -/
theorem masked_dimensions_noninterference (self : VizierGaussianProcess)
    (inp : ModelInput) (vs : List Value) (r : GPDist)
    (h : ((self.call (some inp)).run vs).2 = some r)
    (innerK : ContinuousAndCategorical (List ℚ) →
      ContinuousAndCategorical (List ℚ) → ℚ)
    (logDensity : List (List ℚ) → ℚ)
    (xs ys : List (ContinuousAndCategorical (List ℚ)))
    (hagree : List.Forall₂ (offMaskAgree
      ⟨inp.continuous.dimension_is_missing,
       inp.categorical.dimension_is_missing⟩) xs ys) :
    (∃ base, r.kernel.stripMultitask = .maskFeatures base
      ⟨inp.continuous.dimension_is_missing,
       inp.categorical.dimension_is_missing⟩)
    ∧ logDensity (gramMatrix (maskFeaturesEval innerK
        ⟨inp.continuous.dimension_is_missing,
         inp.categorical.dimension_is_missing⟩) xs) =
      logDensity (gramMatrix (maskFeaturesEval innerK
        ⟨inp.continuous.dimension_is_missing,
         inp.categorical.dimension_is_missing⟩) ys) := by
  refine ⟨(run_call_result self (some inp) vs r h).2.2.2.2.1 inp rfl, ?_⟩
  exact congrArg logDensity (gramMatrix_mask_congr innerK _ xs ys hagree)

/-- Witness for C6: a one-dimensional continuous feature flagged missing —
perturbing its raw value (3 versus 5) leaves the masked Gram functional
unchanged. -/
theorem masked_dimensions_noninterference_witness :
    ∃ r : GPDist, (((⟨⟨1, 1⟩, 1, true, 1/10^12, none, .INDEPENDENT⟩ :
        VizierGaussianProcess).call
        (some ⟨⟨[[3]], [false], [true]⟩, ⟨[[0]], [false], [false]⟩⟩)).run
      [.scalar 1, .vector [2], .vector [3], .scalar 4]).2 = some r
    ∧ (fun g : List (List ℚ) =>
        (g.map (fun row => row.foldr (· + ·) 0)).foldr (· + ·) 0)
        (gramMatrix (maskFeaturesEval
          (fun a b => a.continuous.headD 0 + b.continuous.headD 0)
          ⟨[true], [false]⟩) [⟨[3], [0]⟩]) =
      (fun g : List (List ℚ) =>
        (g.map (fun row => row.foldr (· + ·) 0)).foldr (· + ·) 0)
        (gramMatrix (maskFeaturesEval
          (fun a b => a.continuous.headD 0 + b.continuous.headD 0)
          ⟨[true], [false]⟩) [⟨[5], [0]⟩]) :=
  ⟨_, rfl,
   (masked_dimensions_noninterference
     (⟨⟨1, 1⟩, 1, true, 1/10^12, none, .INDEPENDENT⟩ :
       VizierGaussianProcess)
     ⟨⟨[[3]], [false], [true]⟩, ⟨[[0]], [false], [false]⟩⟩
     [.scalar 1, .vector [2], .vector [3], .scalar 4] _ rfl
     (fun a b => a.continuous.headD 0 + b.continuous.headD 0)
     (fun g => (g.map (fun row => row.foldr (· + ·) 0)).foldr (· + ·) 0)
     [⟨[3], [0]⟩] [⟨[5], [0]⟩]
     (List.Forall₂.cons
       ⟨rfl, rfl,
        fun i hi => by cases i <;> simp at hi,
        fun i hi => by
          cases i with
          | zero => rfl
          | succ j => simp at hi⟩
       List.Forall₂.nil)).2⟩

/-- Softplus is positive. -/
theorem softplus_pos (s y : ℝ) (hs : 0 < s) : 0 < softplus s y := by
  unfold softplus
  apply mul_pos hs
  apply Real.log_pos
  have := Real.exp_pos (y / s)
  linarith

/-- Softplus is strictly increasing. -/
theorem softplus_strictMono (s : ℝ) (hs : 0 < s) :
    StrictMono (softplus s) := by
  intro a b hab
  unfold softplus
  apply mul_lt_mul_of_pos_left ?_ hs
  apply Real.log_lt_log
  · positivity
  · have : Real.exp (a / s) < Real.exp (b / s) :=
      Real.exp_lt_exp.mpr ((div_lt_div_iff_of_pos_right hs).mpr hab)
    linarith

/-- Softplus inverts its explicit inverse on the positive reals. -/
theorem softplus_roundtrip (s z : ℝ) (hs : 0 < s) (hz : 0 < z) :
    softplus s (softplusInv s z) = z := by
  unfold softplus softplusInv
  have h1 : 0 < z / s := div_pos hz hs
  have h2 : (1 : ℝ) < Real.exp (z / s) := by
    have := Real.exp_lt_exp.mpr h1
    rwa [Real.exp_zero] at this
  have h3 : 0 < Real.exp (z / s) - 1 := by linarith
  have h4 : s * Real.log (Real.exp (z / s) - 1) / s =
      Real.log (Real.exp (z / s) - 1) := by field_simp
  rw [h4, Real.exp_log h3]
  have h5 : (1 : ℝ) + (Real.exp (z / s) - 1) = Real.exp (z / s) := by ring
  rw [h5, Real.log_exp]
  field_simp

/-- The soft-clip forward map lands strictly inside its bounds. -/
theorem softClip_mem (low high s x : ℝ) (hlh : low < high) (hs : 0 < s) :
    low < softClip low high s x ∧ softClip low high s x < high := by
  unfold softClip
  have hApos : 0 < softplus s (high - low) := softplus_pos _ _ hs
  have hBpos : 0 < softplus s (high - low - softplus s (x - low)) :=
    softplus_pos _ _ hs
  have hBA : softplus s (high - low - softplus s (x - low)) <
      softplus s (high - low) := by
    apply softplus_strictMono s hs
    have := softplus_pos s (x - low) hs
    linarith
  constructor
  · have h1 : softplus s (high - low - softplus s (x - low)) * (high - low) /
        softplus s (high - low) < high - low := by
      rw [div_lt_iff₀ hApos]
      nlinarith [mul_lt_mul_of_pos_right hBA (sub_pos.mpr hlh)]
    linarith
  · have h2 : 0 < softplus s (high - low - softplus s (x - low)) *
        (high - low) / softplus s (high - low) := by
      apply div_pos (mul_pos hBpos (sub_pos.mpr hlh)) hApos
    linarith

/-- The soft-clip forward map is strictly increasing. -/
theorem softClip_strictMono (low high s : ℝ) (hlh : low < high)
    (hs : 0 < s) : StrictMono (softClip low high s) := by
  intro a b hab
  unfold softClip
  have hApos : 0 < softplus s (high - low) := softplus_pos _ _ hs
  have h1 : softplus s (a - low) < softplus s (b - low) :=
    softplus_strictMono s hs (by linarith)
  have h2 : softplus s (high - low - softplus s (b - low)) <
      softplus s (high - low - softplus s (a - low)) :=
    softplus_strictMono s hs (by linarith)
  have h3 : (0 : ℝ) < high - low := by linarith
  have h4 : softplus s (high - low - softplus s (b - low)) * (high - low) <
      softplus s (high - low - softplus s (a - low)) * (high - low) :=
    mul_lt_mul_of_pos_right h2 h3
  have h5 : softplus s (high - low - softplus s (b - low)) * (high - low) /
      softplus s (high - low) <
      softplus s (high - low - softplus s (a - low)) * (high - low) /
      softplus s (high - low) := by
    exact (div_lt_div_iff_of_pos_right hApos).mpr h4
  linarith

/-- Every interior point is attained by the soft-clip forward map. -/
theorem softClip_surj (low high s c : ℝ) (hlh : low < high) (hs : 0 < s)
    (hc1 : low < c) (hc2 : c < high) :
    ∃ x, softClip low high s x = c := by
  have hApos : 0 < softplus s (high - low) := softplus_pos _ _ hs
  have hhl : (0 : ℝ) < high - low := by linarith
  have hDpos : 0 < (high - c) * softplus s (high - low) / (high - low) :=
    div_pos (mul_pos (by linarith) hApos) hhl
  have hDA : (high - c) * softplus s (high - low) / (high - low) <
      softplus s (high - low) := by
    rw [div_lt_iff₀ hhl]
    nlinarith [mul_lt_mul_of_pos_right
      (show high - c < high - low by linarith) hApos]
  have hstep : softplusInv s
      ((high - c) * softplus s (high - low) / (high - low)) < high - low := by
    have h1 : (high - c) * softplus s (high - low) / (high - low) / s <
        Real.log (1 + Real.exp ((high - low) / s)) := by
      rw [div_lt_iff₀ hs]
      have hA' : softplus s (high - low) =
          s * Real.log (1 + Real.exp ((high - low) / s)) := rfl
      nlinarith [hDA]
    have h2 : Real.exp
        ((high - c) * softplus s (high - low) / (high - low) / s) <
        1 + Real.exp ((high - low) / s) := by
      have := Real.exp_lt_exp.mpr h1
      have hpos : (0 : ℝ) < 1 + Real.exp ((high - low) / s) := by positivity
      calc Real.exp ((high - c) * softplus s (high - low) /
              (high - low) / s)
          < Real.exp (Real.log (1 + Real.exp ((high - low) / s))) := this
        _ = 1 + Real.exp ((high - low) / s) := Real.exp_log hpos
    have h3 : 0 < Real.exp
        ((high - c) * softplus s (high - low) / (high - low) / s) - 1 := by
      have hx := Real.exp_lt_exp.mpr (div_pos hDpos hs)
      rw [Real.exp_zero] at hx
      linarith

    unfold softplusInv
    have h4 : Real.log (Real.exp
        ((high - c) * softplus s (high - low) / (high - low) / s) - 1) <
        (high - low) / s := by
      have hlt : Real.exp ((high - c) * softplus s (high - low) /
          (high - low) / s) - 1 < Real.exp ((high - low) / s) := by
        linarith
      calc Real.log (Real.exp ((high - c) * softplus s (high - low) /
              (high - low) / s) - 1)
          < Real.log (Real.exp ((high - low) / s)) := Real.log_lt_log h3 hlt
        _ = (high - low) / s := Real.log_exp _
    calc s * Real.log (Real.exp ((high - c) * softplus s (high - low) /
            (high - low) / s) - 1)
        < s * ((high - low) / s) := mul_lt_mul_of_pos_left h4 hs
      _ = high - low := by field_simp
  have hE : 0 < high - low - softplusInv s
      ((high - c) * softplus s (high - low) / (high - low)) := by linarith
  refine ⟨low + softplusInv s (high - low - softplusInv s
    ((high - c) * softplus s (high - low) / (high - low))), ?_⟩
  unfold softClip
  rw [show low + softplusInv s (high - low - softplusInv s
      ((high - c) * softplus s (high - low) / (high - low))) - low =
      softplusInv s (high - low - softplusInv s
      ((high - c) * softplus s (high - low) / (high - low))) by ring]
  rw [softplus_roundtrip s _ hs hE]
  rw [show high - low - (high - low - softplusInv s
      ((high - c) * softplus s (high - low) / (high - low))) =
      softplusInv s ((high - c) * softplus s (high - low) / (high - low))
      by ring]
  rw [softplus_roundtrip s _ hs hDpos]
  field_simp

/-- C9: The bounded soft-clip transform built over the epsilon-widened
bounds maps every real input into `[low - eps, high + eps]`, is strictly
increasing, and attains the exact nominal lower and upper bound values at
finite real arguments (so the inverse there is finite, not NaN). -/
theorem soft_clip_transform_contract (low high s eps : ℝ)
    (hlh : low < high) (hs : 0 < s) (heps : 0 < eps) :
    (∀ x, softClip (low - eps) (high + eps) s x ∈
      Set.Icc (low - eps) (high + eps))
    ∧ StrictMono (softClip (low - eps) (high + eps) s)
    ∧ (∃ x, softClip (low - eps) (high + eps) s x = low)
    ∧ (∃ x, softClip (low - eps) (high + eps) s x = high) := by
  have h1 : low - eps < high + eps := by linarith
  refine ⟨fun x => ?_, softClip_strictMono _ _ _ h1 hs, ?_, ?_⟩
  · have := softClip_mem (low - eps) (high + eps) s x h1 hs
    exact ⟨le_of_lt this.1, le_of_lt this.2⟩
  · exact softClip_surj _ _ _ low h1 hs (by linarith) (by linarith)
  · exact softClip_surj _ _ _ high h1 hs (by linarith) (by linarith)

/-- Witness for C9: bounds `(0, 1)`, hinge softness `1`, epsilon `1`. -/
theorem soft_clip_transform_contract_witness :
    (∀ x, softClip (0 - 1) (1 + 1) 1 x ∈ Set.Icc ((0 : ℝ) - 1) (1 + 1))
    ∧ StrictMono (softClip (0 - 1) (1 + 1) 1)
    ∧ (∃ x, softClip (0 - 1) (1 + 1) 1 x = 0)
    ∧ (∃ x, softClip (0 - 1) (1 + 1) 1 x = 1) :=
  soft_clip_transform_contract 0 1 1 1 (by norm_num) (by norm_num)
    (by norm_num)

end Vizier
